import Mathlib

/-!
Shallow embedding of the format abstraction and configurable encode dispatch
layer of the imgconv repository (src/format.go), together with theorems
settling the specification claims about it.

Go machine integers are modelled as `Int` (no arithmetic in the embedded code
can overflow 64 bits), Go strings as `String`, Go slices of bytes as
`List Nat`, Go `nil` interface values as `Option.none`, and fallible Go
functions returning `(T, error)` as `Except String T`.  The external codec
libraries (image/jpeg, image/png, image/gif, tiff, bmp, pdf) are opaque
collaborators: an encode call is modelled as the codec invocation it would
perform (which codec, which image value, which option record), since the
byte-level encoders are outside the repository.
-/

/-- `Format` is an image file format; Go declares it as `type Format int`. -/
abbrev Format := Int

/-- Go constant `JPEG Format = iota` (0). -/
def JPEG : Format := 0

/-- Go constant `PNG` (1). -/
def PNG : Format := 1

/-- Go constant `GIF` (2). -/
def GIF : Format := 2

/-- Go constant `TIFF` (3). -/
def TIFF : Format := 3

/-- Go constant `BMP` (4). -/
def BMP : Format := 4

/-- Go constant `PDF` (5). -/
def PDF : Format := 5

/-- The six encode-capable Format values, in ordinal order. -/
def encodeFormats : List Format := [JPEG, PNG, GIF, TIFF, BMP, PDF]

/-- The entries of the Go map `formatExts`; a Go map literal is a finite set
of key/value pairs, recorded here in source order.  Go map iteration order is
unspecified, so code iterating the map is modelled over an arbitrary
permutation of this list (see `FormatFromExtensionWith`). -/
def formatExtsEntries : List (Format × String) :=
  [(JPEG, "jpg"), (PNG, "png"), (GIF, "gif"), (TIFF, "tif"), (BMP, "bmp"), (PDF, "pdf")]

/-- The six extension strings registered in `formatExts`. -/
def registeredExts : List String := formatExtsEntries.map Prod.snd

/-- Lower-casing of one character as Go's `unicode.ToLower` acts on ASCII:
the letters A-Z shift down by 32, everything else is unchanged.  (The
registry's extensions are all ASCII, and the claims only concern ASCII
inputs, so the ASCII case of `strings.ToLower` is what matters.) -/
def charToLower (c : Char) : Char :=
  if 'A' ≤ c ∧ c ≤ 'Z' then Char.ofNat (c.toNat + 32) else c

/-- Go `strings.ToLower`: lower-case every character of the string. -/
def strToLower (s : String) : String :=
  ⟨s.data.map charToLower⟩

/-- The loop body of `FormatFromExtension`: scan the map entries in the given
order and return the first key whose value equals `ext`. -/
def findFormat (entries : List (Format × String)) (ext : String) : Option Format :=
  match entries with
  | [] => none
  | (k, v) :: rest => if ext = v then some k else findFormat rest ext

/-- `FormatFromExtension` with the map iteration order made explicit: Go
ranges over the map `formatExts` in an unspecified order, so the embedding
takes the entry order as a parameter (any permutation of
`formatExtsEntries`).  The input is lower-cased first
(`ext = strings.ToLower(ext)`); a miss returns the error
"unsupported image format" with sentinel format -1 discarded into the error
branch. -/
def FormatFromExtensionWith (entries : List (Format × String)) (ext : String) :
    Except String Format :=
  match findFormat entries (strToLower ext) with
  | some k => Except.ok k
  | none => Except.error "unsupported image format"

/-- `FormatFromExtension` at the source-order entry list (the canonical run). -/
def FormatFromExtension (ext : String) : Except String Format :=
  FormatFromExtensionWith formatExtsEntries ext

/-- `StringOfFormat`: Go map lookup `formatExts[f]`, which is keyed equality
lookup (deterministic); a missing key yields the error "no such format". -/
def StringOfFormat (f : Format) : Except String String :=
  match formatExtsEntries.lookup f with
  | some str => Except.ok str
  | none => Except.error "no such format"

/-- `TIFFCompression` describes the type of compression used in Options;
Go declares it as `type TIFFCompression int`. -/
abbrev TIFFCompression := Int

/-- Go constant `TIFFUncompressed TIFFCompression = iota` (0). -/
def TIFFUncompressed : TIFFCompression := 0

/-- Go constant `TIFFDeflate` (1). -/
def TIFFDeflate : TIFFCompression := 1

/-- Go constant `TIFFLZW` (2). -/
def TIFFLZW : TIFFCompression := 2

/-- Go constant `TIFFCCITTGroup3` (3). -/
def TIFFCCITTGroup3 : TIFFCompression := 3

/-- Go constant `TIFFCCITTGroup4` (4). -/
def TIFFCCITTGroup4 : TIFFCompression := 4

/-- Go constant `TIFFJPEG` (5). -/
def TIFFJPEG : TIFFCompression := 5

/-- The native compression constants of the external tiff codec
(`tiff.CompressionType`).  The library is an external collaborator; all that
matters here is that its constants are pairwise distinct, so they are
modelled as an enumeration. -/
inductive tiff.CompressionType where
  | Uncompressed
  | Deflate
  | LZW
  | CCITTGroup3
  | CCITTGroup4
  | JPEG
deriving DecidableEq, Repr

/-- `func (c TIFFCompression) value() tiff.CompressionType`: the switch in
src/format.go lines 54-68; any value without a case falls through to
`tiff.Uncompressed`. -/
def TIFFCompression.value (c : TIFFCompression) : tiff.CompressionType :=
  if c = TIFFLZW then tiff.CompressionType.LZW
  else if c = TIFFDeflate then tiff.CompressionType.Deflate
  else if c = TIFFCCITTGroup3 then tiff.CompressionType.CCITTGroup3
  else if c = TIFFCCITTGroup4 then tiff.CompressionType.CCITTGroup4
  else if c = TIFFJPEG then tiff.CompressionType.JPEG
  else tiff.CompressionType.Uncompressed

/-- The external png library constant `png.DefaultCompression`
(`png.CompressionLevel` is a Go int; DefaultCompression is 0). -/
def png.DefaultCompression : Int := 0

/-- `image.Rectangle`: min and max points, Go ints. -/
structure Rect where
  minX : Int
  minY : Int
  maxX : Int
  maxY : Int
deriving DecidableEq, Repr

/-- `image.NRGBA`: non-alpha-premultiplied RGBA pixels.  `pix` holds the
4-bytes-per-pixel buffer (R, G, B, A order), `stride` the bytes between
vertically adjacent pixels (kept as a Nat index step; all images the encoder
receives have non-negative stride), `rect` the bounds. -/
structure NRGBA where
  pix : List Nat
  stride : Nat
  rect : Rect
deriving DecidableEq, Repr

/-- `image.RGBA`: alpha-premultiplied RGBA pixels, same layout fields. -/
structure RGBA where
  pix : List Nat
  stride : Nat
  rect : Rect
deriving DecidableEq, Repr

/-- Width of the rectangle (`Dx`), clamped to Nat for indexing. -/
def Rect.dx (r : Rect) : Nat := (r.maxX - r.minX).toNat

/-- Height of the rectangle (`Dy`), clamped to Nat for indexing. -/
def Rect.dy (r : Rect) : Nat := (r.maxY - r.minY).toNat

/-- Modelled from the spec: the Go standard library method
`(*image.NRGBA).Opaque` is not part of this repository; the spec describes
the guard as "every pixel is fully opaque" / "the alpha channel is uniformly
fully-opaque".  The alpha byte of the pixel at row `y`, column `x` (relative
to the bounds) sits at offset `y*stride + 4*x + 3` of `pix`; the image is
opaque when every such byte is 0xff. -/
def NRGBA.Opaque (p : NRGBA) : Bool :=
  (List.range p.rect.dy).all fun y =>
    (List.range p.rect.dx).all fun x =>
      p.pix.getD (y * p.stride + 4 * x + 3) 0 == 0xff

/-- The declarative reading of full opacity used to state claims: every
in-bounds pixel has alpha byte 0xff. -/
def NRGBA.allAlphaOpaque (p : NRGBA) : Prop :=
  ∀ y < p.rect.dy, ∀ x < p.rect.dx, p.pix.getD (y * p.stride + 4 * x + 3) 0 = 0xff

instance (p : NRGBA) : Decidable p.allAlphaOpaque := by
  unfold NRGBA.allAlphaOpaque; infer_instance

/-- `image.Image` values reaching the dispatcher: an `*image.NRGBA`, an
`*image.RGBA`, or any other image kind (opaque to the dispatcher, which
only type-asserts on `*image.NRGBA`).  `generic` carries an identifier so
distinct other images stay distinct. -/
inductive Image where
  | nrgba (v : NRGBA)
  | rgba (v : RGBA)
  | generic (id : Nat)
deriving DecidableEq, Repr

/-- `encodeConfig`: one field per tunable parameter (src/format.go 76-83).
The gif quantizer and drawer are interface values; `none` models Go `nil`
and `some h` an arbitrary non-nil implementation handle. -/
structure encodeConfig where
  Quality : Int
  gifNumColors : Int
  gifQuantizer : Option Nat
  gifDrawer : Option Nat
  pngCompressionLevel : Int
  tiffCompressionType : TIFFCompression
deriving DecidableEq, Repr

/-- `defaultEncodeConfig` (src/format.go 85-92). -/
def defaultEncodeConfig : encodeConfig :=
  { Quality := 75
    gifNumColors := 256
    gifQuantizer := none
    gifDrawer := none
    pngCompressionLevel := png.DefaultCompression
    tiffCompressionType := TIFFLZW }

/-- `EncodeOption` is `func(*encodeConfig)`: a mutator of the config record.
Go structs are value types, so the mutation of the pointed-to local copy is
modelled as a pure record update. -/
abbrev EncodeOption := encodeConfig → encodeConfig

/-- `Quality(quality int)`: sets the output JPEG or PDF quality field. -/
def Quality (quality : Int) : EncodeOption :=
  fun c => { c with Quality := quality }

/-- `GIFNumColors(numColors int)`: sets the maximum number of GIF colors. -/
def GIFNumColors (numColors : Int) : EncodeOption :=
  fun c => { c with gifNumColors := numColors }

/-- `GIFQuantizer(quantizer draw.Quantizer)`: sets the GIF quantizer. -/
def GIFQuantizer (quantizer : Option Nat) : EncodeOption :=
  fun c => { c with gifQuantizer := quantizer }

/-- `GIFDrawer(drawer draw.Drawer)`: sets the GIF drawer. -/
def GIFDrawer (drawer : Option Nat) : EncodeOption :=
  fun c => { c with gifDrawer := drawer }

/-- `PNGCompressionLevel(level png.CompressionLevel)`: sets the PNG
compression level. -/
def PNGCompressionLevel (level : Int) : EncodeOption :=
  fun c => { c with pngCompressionLevel := level }

/-- `TIFFCompressionType(compressionType TIFFCompression)`: sets the TIFF
compression type. -/
def TIFFCompressionType (compressionType : TIFFCompression) : EncodeOption :=
  fun c => { c with tiffCompressionType := compressionType }

/-- The option loop of `Encode` (src/format.go 182-185): start from the given
record and apply each option in supplied order. -/
def applyOptions (cfg : encodeConfig) (opts : List EncodeOption) : encodeConfig :=
  opts.foldl (fun c o => o c) cfg

/-- `FormatOption` pairs a Format with the caller's option list. -/
structure FormatOption where
  Format : Format
  EncodeOption : List EncodeOption

/-- The invocation an `Encode` call hands to the external codec libraries:
which codec, which image value, and which option values.  The byte-level
encoders are opaque external collaborators, so a successful dispatch is
modelled by the invocation it performs; an error return performs none, hence
writes nothing to the sink. -/
inductive CodecCall where
  | jpegEnc (img : Image) (quality : Int)
  | pngEnc (img : Image) (compressionLevel : Int)
  | gifEnc (img : Image) (numColors : Int) (quantizer : Option Nat) (drawer : Option Nat)
  | tiffEnc (img : Image) (compression : tiff.CompressionType) (predictor : Bool)
  | bmpEnc (img : Image)
  | pdfEnc (imgs : List Image) (quality : Int)
deriving DecidableEq, Repr

/-- `func (f *FormatOption) Encode(w io.Writer, img image.Image) error`
(src/format.go 181-221): build the config from a fresh copy of
`defaultEncodeConfig` mutated by the options in order, then switch on the
format.  The JPEG arm type-asserts `*image.NRGBA` and, when the image is
opaque, encodes an `image.RGBA` view built from the same `Pix`, `Stride`
and `Rect`; every other arm passes the image through.  A format with no
case returns the error "unsupported image format". -/
def FormatOption.Encode (f : FormatOption) (img : Image) : Except String CodecCall :=
  let cfg := applyOptions defaultEncodeConfig f.EncodeOption
  if f.Format = JPEG then
    match img with
    | Image.nrgba nrgba =>
      if nrgba.Opaque then
        Except.ok (CodecCall.jpegEnc
          (Image.rgba { pix := nrgba.pix, stride := nrgba.stride, rect := nrgba.rect })
          cfg.Quality)
      else
        Except.ok (CodecCall.jpegEnc img cfg.Quality)
    | _ => Except.ok (CodecCall.jpegEnc img cfg.Quality)
  else if f.Format = PNG then
    Except.ok (CodecCall.pngEnc img cfg.pngCompressionLevel)
  else if f.Format = GIF then
    Except.ok (CodecCall.gifEnc img cfg.gifNumColors cfg.gifQuantizer cfg.gifDrawer)
  else if f.Format = TIFF then
    Except.ok (CodecCall.tiffEnc img cfg.tiffCompressionType.value true)
  else if f.Format = BMP then
    Except.ok (CodecCall.bmpEnc img)
  else if f.Format = PDF then
    Except.ok (CodecCall.pdfEnc [img] cfg.Quality)
  else
    Except.error "unsupported image format"

/-- The result of the JPEG arm's representation normalization, factored out
to state claims about it: an opaque `*image.NRGBA` is reinterpreted as an
`image.RGBA` view over the same buffer fields; everything else passes
through untouched. -/
def jpegNormalize (img : Image) : Image :=
  match img with
  | Image.nrgba v =>
    if v.Opaque then Image.rgba { pix := v.pix, stride := v.stride, rect := v.rect } else img
  | _ => img

/-- Whether an image is an `*image.NRGBA` value. -/
def Image.isNRGBA : Image → Bool
  | Image.nrgba _ => true
  | _ => false

/-- Mutable-state view of one `Encode` call's configuration handling, used to
settle the frame claim about `defaultEncodeConfig`: `globalDefault` is the
package-level record, `localCfg` the function-local `cfg`.  The Go statement
`cfg := defaultEncodeConfig` is a struct value copy, so the local starts as a
copy of the global; each option receives `&cfg` and therefore can write only
the local cell. -/
structure EncodeState where
  globalDefault : encodeConfig
  localCfg : encodeConfig
deriving DecidableEq, Repr

/-- Run the option loop of `Encode` over the two-cell state: each option
writes the local cell only (its receiver is `&cfg`). -/
def runOptions (s : EncodeState) (opts : List EncodeOption) : EncodeState :=
  opts.foldl (fun st o => { st with localCfg := o st.localCfg }) s

/-- One `Encode` call's configuration phase against the current global
default: copy the global into the local, then apply the options. -/
def buildConfigState (globalDefault : encodeConfig) (opts : List EncodeOption) :
    EncodeState :=
  runOptions { globalDefault := globalDefault, localCfg := globalDefault } opts

deriving instance DecidableEq for Except

/-- Whether an encode dispatch succeeded, i.e. returned a codec invocation
rather than an error (an error writes nothing to the sink). -/
def encodeSucceeds (r : Except String CodecCall) : Bool :=
  match r with
  | Except.ok _ => true
  | Except.error _ => false

/-! ### Helper lemmas -/

theorem findFormat_eq_filter_head (l : List (Format × String)) (ext : String) :
    findFormat l ext = ((l.filter fun p => ext == p.2).head?).map Prod.fst := by
  induction l with
  | nil => rfl
  | cons p t ih =>
    obtain ⟨k, v⟩ := p
    by_cases h : ext = v
    · simp [findFormat, List.filter_cons, h]
    · simp [findFormat, List.filter_cons, h, ih]

theorem filter_snd_length_le_one (l : List (Format × String)) (ext : String)
    (hnd : (l.map Prod.snd).Nodup) :
    (l.filter fun p => ext == p.2).length ≤ 1 := by
  induction l with
  | nil => simp
  | cons p t ih =>
    obtain ⟨k, v⟩ := p
    rw [List.map_cons, List.nodup_cons] at hnd
    obtain ⟨hv, hnd'⟩ := hnd
    by_cases h : ext = v
    · subst h
      have ht : (t.filter fun p => ext == p.2) = [] := by
        rw [List.filter_eq_nil_iff]
        rintro ⟨a, b⟩ hab
        simp only [beq_iff_eq]
        intro hcontra
        exact hv (by rw [hcontra]; exact List.mem_map.mpr ⟨(a, b), hab, rfl⟩)
      simp [List.filter_cons, ht]
    · simpa [List.filter_cons, h] using ih hnd'

theorem findFormat_none_of_not_mem (l : List (Format × String)) (ext : String)
    (hmem : ext ∉ l.map Prod.snd) : findFormat l ext = none := by
  induction l with
  | nil => rfl
  | cons p t ih =>
    obtain ⟨k, v⟩ := p
    rw [List.map_cons, List.mem_cons, not_or] at hmem
    obtain ⟨h1, h2⟩ := hmem
    simp [findFormat, h1, ih h2]

theorem runOptions_globalDefault (opts : List EncodeOption) :
    ∀ s : EncodeState, (runOptions s opts).globalDefault = s.globalDefault := by
  induction opts with
  | nil => intro s; rfl
  | cons o t ih => intro s; exact ih _

theorem runOptions_localCfg (opts : List EncodeOption) :
    ∀ s : EncodeState, (runOptions s opts).localCfg = applyOptions s.localCfg opts := by
  induction opts with
  | nil => intro s; rfl
  | cons o t ih => intro s; exact ih _

theorem NRGBA.opaque_iff_allAlphaOpaque (v : NRGBA) :
    v.Opaque = true ↔ v.allAlphaOpaque := by
  unfold NRGBA.Opaque NRGBA.allAlphaOpaque
  simp [List.all_eq_true, List.mem_range]

/-! ### Claim theorems -/

/-- C1: For JPEG encoding, `Encode` takes the no-copy reinterpretation path
exactly when the input is an `*image.NRGBA` whose pixels are all fully
opaque: it then encodes an `image.RGBA` view built from the same `Pix`
buffer, `Stride` and `Rect`; if the image is not NRGBA, or any pixel is
non-opaque, the original image is passed to the JPEG codec untouched. -/
theorem jpeg_nocopy_reinterpretation (v : NRGBA) (img : Image)
    (opts : List EncodeOption) :
    (v.allAlphaOpaque →
      FormatOption.Encode ⟨JPEG, opts⟩ (Image.nrgba v) =
        Except.ok (CodecCall.jpegEnc
          (Image.rgba { pix := v.pix, stride := v.stride, rect := v.rect })
          (applyOptions defaultEncodeConfig opts).Quality)) ∧
    (¬ v.allAlphaOpaque →
      FormatOption.Encode ⟨JPEG, opts⟩ (Image.nrgba v) =
        Except.ok (CodecCall.jpegEnc (Image.nrgba v)
          (applyOptions defaultEncodeConfig opts).Quality)) ∧
    (img.isNRGBA = false →
      FormatOption.Encode ⟨JPEG, opts⟩ img =
        Except.ok (CodecCall.jpegEnc img
          (applyOptions defaultEncodeConfig opts).Quality)) := by
  refine ⟨fun h => ?_, fun h => ?_, fun h => ?_⟩
  · have hop : v.Opaque = true := (NRGBA.opaque_iff_allAlphaOpaque v).mpr h
    simp [FormatOption.Encode, hop]
  · have hop : v.Opaque = false := by
      cases hB : v.Opaque with
      | true => exact absurd ((NRGBA.opaque_iff_allAlphaOpaque v).mp hB) h
      | false => rfl
    simp [FormatOption.Encode, hop]
  · cases img with
    | nrgba w => simp [Image.isNRGBA] at h
    | rgba w => simp [FormatOption.Encode]
    | generic n => simp [FormatOption.Encode]

theorem jpeg_nocopy_reinterpretation_witness :
    FormatOption.Encode ⟨JPEG, []⟩ (Image.nrgba ⟨[10, 20, 30, 255], 4, ⟨0, 0, 1, 1⟩⟩) =
      Except.ok (CodecCall.jpegEnc (Image.rgba ⟨[10, 20, 30, 255], 4, ⟨0, 0, 1, 1⟩⟩) 75) ∧
    FormatOption.Encode ⟨JPEG, []⟩ (Image.nrgba ⟨[10, 20, 30, 128], 4, ⟨0, 0, 1, 1⟩⟩) =
      Except.ok (CodecCall.jpegEnc (Image.nrgba ⟨[10, 20, 30, 128], 4, ⟨0, 0, 1, 1⟩⟩) 75) ∧
    FormatOption.Encode ⟨JPEG, []⟩ (Image.generic 7) =
      Except.ok (CodecCall.jpegEnc (Image.generic 7) 75) :=
  ⟨(jpeg_nocopy_reinterpretation ⟨[10, 20, 30, 255], 4, ⟨0, 0, 1, 1⟩⟩ (Image.generic 7) []).1
      (by decide),
   (jpeg_nocopy_reinterpretation ⟨[10, 20, 30, 128], 4, ⟨0, 0, 1, 1⟩⟩ (Image.generic 7) []).2.1
      (by decide),
   (jpeg_nocopy_reinterpretation ⟨[10, 20, 30, 128], 4, ⟨0, 0, 1, 1⟩⟩ (Image.generic 7) []).2.2
      (by decide)⟩

/-- C2: For every encode-capable Format (JPEG, PNG, GIF, TIFF, BMP, PDF),
`StringOfFormat` succeeds, and feeding its extension back through
`FormatFromExtension` returns the same Format with no error. -/
theorem extension_registry_bijection :
    ∀ f ∈ encodeFormats,
      ∃ s, StringOfFormat f = Except.ok s ∧ FormatFromExtension s = Except.ok f := by
  intro f hf
  simp only [encodeFormats, List.mem_cons, List.not_mem_nil, or_false] at hf
  rcases hf with rfl | rfl | rfl | rfl | rfl | rfl
  · exact ⟨"jpg", by decide, by decide⟩
  · exact ⟨"png", by decide, by decide⟩
  · exact ⟨"gif", by decide, by decide⟩
  · exact ⟨"tif", by decide, by decide⟩
  · exact ⟨"bmp", by decide, by decide⟩
  · exact ⟨"pdf", by decide, by decide⟩

theorem extension_registry_bijection_witness :
    ∃ s, StringOfFormat JPEG = Except.ok s ∧ FormatFromExtension s = Except.ok JPEG :=
  extension_registry_bijection JPEG (by decide)

/-- C3: Encoding with zero option functions uses exactly the documented
default configuration: JPEG/PDF quality 75, GIF max colors 256 with nil
quantizer and nil drawer, PNG compression png.DefaultCompression, TIFF
compression LZW, and the TIFF predictor flag is always true in the codec
call (for any option list). -/
theorem default_configuration_encoding (img : Image) (opts : List EncodeOption) :
    FormatOption.Encode ⟨JPEG, []⟩ img =
      Except.ok (CodecCall.jpegEnc (jpegNormalize img) 75) ∧
    FormatOption.Encode ⟨PDF, []⟩ img = Except.ok (CodecCall.pdfEnc [img] 75) ∧
    FormatOption.Encode ⟨GIF, []⟩ img =
      Except.ok (CodecCall.gifEnc img 256 none none) ∧
    FormatOption.Encode ⟨PNG, []⟩ img =
      Except.ok (CodecCall.pngEnc img png.DefaultCompression) ∧
    FormatOption.Encode ⟨TIFF, []⟩ img =
      Except.ok (CodecCall.tiffEnc img tiff.CompressionType.LZW true) ∧
    FormatOption.Encode ⟨TIFF, opts⟩ img =
      Except.ok (CodecCall.tiffEnc img
        ((applyOptions defaultEncodeConfig opts).tiffCompressionType).value true) := by
  refine ⟨?_, ?_, ?_, ?_, ?_, ?_⟩
  · cases img with
    | nrgba v =>
      by_cases h : v.Opaque <;>
        simp [FormatOption.Encode, jpegNormalize, h, applyOptions, defaultEncodeConfig]
    | rgba v => simp [FormatOption.Encode, jpegNormalize, applyOptions, defaultEncodeConfig]
    | generic n => simp [FormatOption.Encode, jpegNormalize, applyOptions, defaultEncodeConfig]
  · simp [FormatOption.Encode, PDF, JPEG, PNG, GIF, TIFF, BMP,
      applyOptions, defaultEncodeConfig]
  · simp [FormatOption.Encode, PDF, JPEG, PNG, GIF, TIFF, BMP,
      applyOptions, defaultEncodeConfig]
  · simp [FormatOption.Encode, PDF, JPEG, PNG, GIF, TIFF, BMP,
      applyOptions, defaultEncodeConfig]
  · simp [FormatOption.Encode, PDF, JPEG, PNG, GIF, TIFF, BMP,
      applyOptions, defaultEncodeConfig, TIFFCompression.value, TIFFLZW, TIFFDeflate]
  · simp [FormatOption.Encode, PDF, JPEG, PNG, GIF, TIFF, BMP]

/-- C4: Option functions apply in caller order with last-wins semantics on a
shared field: [Quality 50, Quality 90] yields Quality 90, the reversed list
yields Quality 50, the second Quality always decides, and option application
composes sequentially. -/
theorem option_order_last_wins (cfg : encodeConfig) (q1 q2 : Int)
    (opts1 opts2 : List EncodeOption) :
    (applyOptions defaultEncodeConfig [Quality 50, Quality 90]).Quality = 90 ∧
    (applyOptions defaultEncodeConfig [Quality 90, Quality 50]).Quality = 50 ∧
    (applyOptions cfg [Quality q1, Quality q2]).Quality = q2 ∧
    applyOptions cfg (opts1 ++ opts2) = applyOptions (applyOptions cfg opts1) opts2 := by
  refine ⟨rfl, rfl, rfl, ?_⟩
  simp [applyOptions, List.foldl_append]

/-- C5: Encode succeeds for exactly the six Format values JPEG, PNG, GIF,
TIFF, BMP, PDF; any other Format value yields the error "unsupported image
format" and performs no codec invocation (nothing is written to the sink). -/
theorem encode_unsupported_format (f : Format) (opts : List EncodeOption)
    (img : Image) :
    (f ∈ encodeFormats → encodeSucceeds (FormatOption.Encode ⟨f, opts⟩ img) = true) ∧
    (f ∉ encodeFormats →
      FormatOption.Encode ⟨f, opts⟩ img = Except.error "unsupported image format") := by
  constructor
  · intro hf
    simp only [encodeFormats, List.mem_cons, List.not_mem_nil, or_false] at hf
    rcases hf with rfl | rfl | rfl | rfl | rfl | rfl
    · cases img with
      | nrgba v => by_cases h : v.Opaque <;> simp [FormatOption.Encode, h, encodeSucceeds]
      | rgba v => simp [FormatOption.Encode, encodeSucceeds]
      | generic n => simp [FormatOption.Encode, encodeSucceeds]
    all_goals simp [FormatOption.Encode, encodeSucceeds, PDF, JPEG, PNG, GIF, TIFF, BMP]
  · intro hf
    simp only [encodeFormats, List.mem_cons, List.not_mem_nil, or_false, not_or] at hf
    obtain ⟨h1, h2, h3, h4, h5, h6⟩ := hf
    simp [FormatOption.Encode, h1, h2, h3, h4, h5, h6]

theorem encode_unsupported_format_witness :
    encodeSucceeds (FormatOption.Encode ⟨JPEG, []⟩ (Image.generic 0)) = true ∧
    FormatOption.Encode ⟨-1, []⟩ (Image.generic 0) =
      Except.error "unsupported image format" ∧
    FormatOption.Encode ⟨6, []⟩ (Image.generic 0) =
      Except.error "unsupported image format" :=
  ⟨(encode_unsupported_format JPEG [] (Image.generic 0)).1 (by decide),
   (encode_unsupported_format (-1) [] (Image.generic 0)).2 (by decide),
   (encode_unsupported_format 6 [] (Image.generic 0)).2 (by decide)⟩

/-- C6: FormatFromExtension lower-cases its input before matching, so
resolution is case-insensitive ("Jpg" and "JPG" resolve to JPEG), and every
string whose lower-casing matches none of the six registered extensions — in
particular "txt" — yields the error "unsupported image format". -/
theorem extension_resolution_case_insensitive (s t : String) :
    (strToLower s = strToLower t → FormatFromExtension s = FormatFromExtension t) ∧
    FormatFromExtension "Jpg" = Except.ok JPEG ∧
    FormatFromExtension "JPG" = Except.ok JPEG ∧
    (strToLower s ∉ registeredExts →
      FormatFromExtension s = Except.error "unsupported image format") ∧
    FormatFromExtension "txt" = Except.error "unsupported image format" := by
  refine ⟨fun h => ?_, by decide, by decide, fun h => ?_, by decide⟩
  · unfold FormatFromExtension FormatFromExtensionWith
    rw [h]
  · unfold FormatFromExtension FormatFromExtensionWith
    rw [findFormat_none_of_not_mem formatExtsEntries (strToLower s) h]

theorem extension_resolution_case_insensitive_witness :
    FormatFromExtension "TXT" = FormatFromExtension "tXt" ∧
    FormatFromExtension "TXT" = Except.error "unsupported image format" :=
  ⟨(extension_resolution_case_insensitive "TXT" "tXt").1 (by decide),
   (extension_resolution_case_insensitive "TXT" "tXt").2.2.2.1 (by decide)⟩

/-- C7: `TIFFCompression.value` maps TIFFLZW, TIFFDeflate, TIFFCCITTGroup3,
TIFFCCITTGroup4 and TIFFJPEG to the codec's native constants, and every
other value — including TIFFUncompressed and any out-of-range integer —
maps to tiff.Uncompressed. -/
theorem tiff_compression_value_mapping (c : TIFFCompression) :
    TIFFCompression.value TIFFLZW = tiff.CompressionType.LZW ∧
    TIFFCompression.value TIFFDeflate = tiff.CompressionType.Deflate ∧
    TIFFCompression.value TIFFCCITTGroup3 = tiff.CompressionType.CCITTGroup3 ∧
    TIFFCompression.value TIFFCCITTGroup4 = tiff.CompressionType.CCITTGroup4 ∧
    TIFFCompression.value TIFFJPEG = tiff.CompressionType.JPEG ∧
    (c ∉ ([TIFFDeflate, TIFFLZW, TIFFCCITTGroup3, TIFFCCITTGroup4, TIFFJPEG] :
        List TIFFCompression) →
      TIFFCompression.value c = tiff.CompressionType.Uncompressed) := by
  refine ⟨by decide, by decide, by decide, by decide, by decide, fun h => ?_⟩
  simp only [List.mem_cons, List.not_mem_nil, or_false, not_or] at h
  obtain ⟨h1, h2, h3, h4, h5⟩ := h
  simp [TIFFCompression.value, h1, h2, h3, h4, h5]

theorem tiff_compression_value_mapping_witness :
    TIFFCompression.value TIFFUncompressed = tiff.CompressionType.Uncompressed ∧
    TIFFCompression.value 100 = tiff.CompressionType.Uncompressed ∧
    TIFFCompression.value (-7) = tiff.CompressionType.Uncompressed :=
  ⟨(tiff_compression_value_mapping TIFFUncompressed).2.2.2.2.2 (by decide),
   (tiff_compression_value_mapping 100).2.2.2.2.2 (by decide),
   (tiff_compression_value_mapping (-7)).2.2.2.2.2 (by decide)⟩

/-- C8: Each Encode call builds its configuration from a fresh value copy of
`defaultEncodeConfig`; no option application mutates the shared default,
which keeps Quality 75, 256 GIF colors, nil quantizer and drawer,
png.DefaultCompression and TIFFLZW, and the second of two sequential calls
never observes the first call's mutations.  The last conjunct ties the state
model to the configuration `Encode` dispatches with. -/
theorem default_config_isolation (opts opts2 : List EncodeOption) :
    (buildConfigState defaultEncodeConfig opts).globalDefault = defaultEncodeConfig ∧
    defaultEncodeConfig =
      { Quality := 75, gifNumColors := 256, gifQuantizer := none, gifDrawer := none,
        pngCompressionLevel := png.DefaultCompression, tiffCompressionType := TIFFLZW } ∧
    (buildConfigState
        (buildConfigState defaultEncodeConfig opts).globalDefault opts2).localCfg =
      (buildConfigState defaultEncodeConfig opts2).localCfg ∧
    (buildConfigState defaultEncodeConfig opts).localCfg =
      applyOptions defaultEncodeConfig opts := by
  refine ⟨runOptions_globalDefault opts _, rfl, ?_, runOptions_localCfg opts _⟩
  have hg : (buildConfigState defaultEncodeConfig opts).globalDefault = defaultEncodeConfig :=
    runOptions_globalDefault opts _
  rw [hg]

/-- C9: The long-form extensions "jpeg" and "tiff" (in any letter casing) are
not in the registry and FormatFromExtension returns the "unsupported image
format" error for them, despite the doc comment on the function; only the
six canonical short extensions resolve. -/
theorem long_extensions_unsupported (s : String) :
    (strToLower s = "jpeg" →
      FormatFromExtension s = Except.error "unsupported image format") ∧
    (strToLower s = "tiff" →
      FormatFromExtension s = Except.error "unsupported image format") ∧
    FormatFromExtension "jpeg" = Except.error "unsupported image format" ∧
    FormatFromExtension "tiff" = Except.error "unsupported image format" ∧
    (∀ f : Format, FormatFromExtension s = Except.ok f → strToLower s ∈ registeredExts) := by
  refine ⟨fun h => ?_, fun h => ?_, by decide, by decide, fun f hf => ?_⟩
  · unfold FormatFromExtension FormatFromExtensionWith
    rw [h]
    rfl
  · unfold FormatFromExtension FormatFromExtensionWith
    rw [h]
    rfl
  · by_contra hmem
    rw [show FormatFromExtension s = Except.error "unsupported image format" from by
        unfold FormatFromExtension FormatFromExtensionWith
        rw [findFormat_none_of_not_mem formatExtsEntries (strToLower s) hmem]] at hf
    exact absurd hf (by simp)

theorem long_extensions_unsupported_witness :
    FormatFromExtension "Jpeg" = Except.error "unsupported image format" ∧
    FormatFromExtension "tiFF" = Except.error "unsupported image format" ∧
    strToLower "jpg" ∈ registeredExts :=
  ⟨(long_extensions_unsupported "Jpeg").1 (by decide),
   (long_extensions_unsupported "tiFF").2.1 (by decide),
   (long_extensions_unsupported "jpg").2.2.2.2 JPEG (by decide)⟩

/-- C10: FormatFromExtension is deterministic despite Go's unspecified map
iteration order: because the six registered extension strings are pairwise
distinct, scanning the entries in any permutation of the map yields the same
(Format, error) result for every input. -/
theorem format_resolution_map_order_independent (l : List (Format × String))
    (ext : String) (h : l.Perm formatExtsEntries) :
    FormatFromExtensionWith l ext = FormatFromExtension ext := by
  unfold FormatFromExtension FormatFromExtensionWith
  suffices hfind :
      findFormat l (strToLower ext) = findFormat formatExtsEntries (strToLower ext) by
    rw [hfind]
  rw [findFormat_eq_filter_head, findFormat_eq_filter_head]
  have hperm := h.filter (fun p => strToLower ext == p.2)
  have hnd : (formatExtsEntries.map Prod.snd).Nodup := by decide
  have hlen := filter_snd_length_le_one formatExtsEntries (strToLower ext) hnd
  cases hfe : formatExtsEntries.filter (fun p => strToLower ext == p.2) with
  | nil =>
    rw [hfe] at hperm
    rw [List.perm_nil.mp hperm]
  | cons a tl =>
    rw [hfe] at hperm hlen
    cases tl with
    | nil => rw [List.perm_singleton.mp hperm]
    | cons b tl2 => simp at hlen

theorem format_resolution_map_order_independent_witness :
    FormatFromExtensionWith formatExtsEntries.reverse "Png" = FormatFromExtension "Png" :=
  format_resolution_map_order_independent formatExtsEntries.reverse "Png" (by decide)
